import Mathlib

/-!
Verification of the execution-context and container-lifecycle engine of the
Code-Editor-API repository, as implemented in
`src/Api1/src/services/sessionFreeExecutionService.ts`,
`src/Api1/src/services/sharedTerminalService.ts` and
`src/Api1/src/config/dynamicLanguages.ts`.

The JavaScript runtime state is embedded shallowly:
* a JS `Map` (which preserves insertion order) becomes an association list
  `List (String × α)` with `mapGet` / `mapSet` / `mapDelete` mirroring
  `Map.get` / `Map.set` / `Map.delete`;
* a JS `Set<string>` becomes a duplicate-free `List String` with `setAdd`
  mirroring `Set.add` (append if absent);
* `Date` timestamps become `Nat` milliseconds;
* the external `DynamicDockerService` (its source is not part of the
  repository snapshot) is passed in as oracle functions, modelled from the
  spec where its behavior matters.
-/

/-- JS `Map.get`: value of the first (unique) entry with the given key. -/
def mapGet {α : Type} : List (String × α) → String → Option α
  | [], _ => none
  | e :: rest, k => if e.1 = k then some e.2 else mapGet rest k

/-- JS `Map.set`: update the entry in place (keeping its position) if the key
is present, otherwise append a new entry. -/
def mapSet {α : Type} : List (String × α) → String → α → List (String × α)
  | [], k, v => [(k, v)]
  | e :: rest, k, v => if e.1 = k then (k, v) :: rest else e :: mapSet rest k v

/-- JS `Map.delete`: remove the (unique) entry with the given key. -/
def mapDelete {α : Type} : List (String × α) → String → List (String × α)
  | [], _ => []
  | e :: rest, k => if e.1 = k then rest else e :: mapDelete rest k

/-- JS `Set.add` on a `Set<string>` represented as its insertion-ordered
element list. -/
def setAdd (l : List String) (x : String) : List String :=
  if l.contains x then l else l ++ [x]

/-- `Array.prototype.join(' ')`. -/
def joinSpace : List String → String
  | [] => ""
  | [s] => s
  | s :: rest => s ++ " " ++ joinSpace rest

/-- One entry of `languageTiers` (`src/Api1/src/config/dynamicLanguages.ts`),
restricted to the fields the embedded services read.  In the source,
`packageInstallCommand?: string[]` is an optional field: `none` embeds an
absent field, `some []` embeds the empty array (the cpp/java profiles).
Resource-limit fields (memory, cpu, timeout, concurrency, base image) are
never read by the embedded operations and are omitted. -/
structure LanguageTier where
  name : String
  fileExtension : String
  setupCommands : List String
  executeCommand : String → List String
  packageInstallCommand : Option (List String)
  active : Bool

/-- `languageTiers.python` (dynamicLanguages.ts lines 31-51). -/
def pythonTier : LanguageTier where
  name := "Python"
  fileExtension := ".py"
  setupCommands :=
    ["apt-get update && apt-get install -y --no-install-recommends gcc libc6-dev build-essential && rm -rf /var/lib/apt/lists/*",
     "pip install --no-cache-dir pip --upgrade",
     "pip install --no-cache-dir requests urllib3 numpy pandas matplotlib seaborn plotly scikit-learn"]
  executeCommand := fun fileName => ["python", "-u", fileName]
  packageInstallCommand := some ["pip", "install", "--no-cache-dir"]
  active := true

/-- `languageTiers.javascript` (dynamicLanguages.ts lines 53-70). -/
def javascriptTier : LanguageTier where
  name := "JavaScript (Node.js)"
  fileExtension := ".js"
  setupCommands :=
    ["apt-get update && apt-get install -y --no-install-recommends python3 make g++ && rm -rf /var/lib/apt/lists/*",
     "npm install -g npm@latest"]
  executeCommand := fun fileName => ["node", fileName]
  packageInstallCommand := some ["npm", "install", "--no-save"]
  active := true

/-- `languageTiers.go` (dynamicLanguages.ts lines 72-88). -/
def goTier : LanguageTier where
  name := "Go"
  fileExtension := ".go"
  setupCommands := ["apk add --no-cache git"]
  executeCommand := fun fileName => ["go", "run", fileName]
  packageInstallCommand := some ["go", "get"]
  active := true

/-- `languageTiers.cpp` (dynamicLanguages.ts lines 91-107).  Note that the
source sets `packageInstallCommand: []` — an empty array, not an absent
field. -/
def cppTier : LanguageTier where
  name := "C++"
  fileExtension := ".cpp"
  setupCommands :=
    ["apt-get update && apt-get install -y --no-install-recommends && rm -rf /var/lib/apt/lists/*"]
  executeCommand := fun fileName =>
    ["sh", "-c", "g++ -std=c++17 " ++ fileName ++ " -o output && ./output"]
  packageInstallCommand := some []
  active := true

/-- `languageTiers.java` (dynamicLanguages.ts lines 109-125).  As for cpp,
`packageInstallCommand` is the empty array. -/
def javaTier : LanguageTier where
  name := "Java"
  fileExtension := ".java"
  setupCommands :=
    ["apt-get update && apt-get install -y --no-install-recommends && rm -rf /var/lib/apt/lists/*"]
  executeCommand := fun fileName =>
    ["sh", "-c", "javac " ++ fileName ++ " && java " ++ fileName.replace ".java" ""]
  packageInstallCommand := some []
  active := true

/-- The record lookup `languageTiers[language]` (exact, case-sensitive key
access on the JS object). -/
def languageTiers (language : String) : Option LanguageTier :=
  if language = "python" then some pythonTier
  else if language = "javascript" then some javascriptTier
  else if language = "go" then some goTier
  else if language = "cpp" then some cppTier
  else if language = "java" then some javaTier
  else none

/-- `PersistentExecutionContext` (sessionFreeExecutionService.ts lines 24-33),
with `installedPackages : Set<string>` as an insertion-ordered list and dates
as millisecond counts. -/
structure PersistentExecutionContext where
  contextId : String
  containerId : String
  language : String
  workingDir : String
  installedPackages : List String
  userId : String
  lastUsed : Nat
  createdAt : Nat
deriving DecidableEq, Repr

/-- Outcome of one `installPackages` call: the context after the call (the JS
context object is mutated in place, so its state survives a thrown error),
the install commands issued to the container in order, and either normal
completion or the thrown error message. -/
structure InstallOutcome where
  ctx : PersistentExecutionContext
  commands : List String
  result : Except String Unit
deriving Repr

/-- The `for (const packageName of newPackages)` loop of
`SessionFreeExecutionService.installPackages` (lines 196-208).  `execOk cmd`
tells whether `dockerService.executeCommand(containerId, cmd)` resolves; on
rejection the loop throws `Failed to install package: <name>` and the
remaining names are not attempted.  A successfully installed name is added to
`context.installedPackages` before the next iteration. -/
def installLoop (execOk : String → Bool) (installCmd : List String)
    (ctx : PersistentExecutionContext) :
    List String → InstallOutcome
  | [] => ⟨ctx, [], .ok ()⟩
  | p :: rest =>
    let cmd := joinSpace (installCmd ++ [p])
    if execOk cmd then
      let out := installLoop execOk installCmd
        { ctx with installedPackages := setAdd ctx.installedPackages p } rest
      ⟨out.ctx, cmd :: out.commands, out.result⟩
    else
      ⟨ctx, [cmd], .error ("Failed to install package: " ++ p)⟩

/-- `SessionFreeExecutionService.installPackages` (lines 183-209).  The guard
is `!languageConfig || !languageConfig.packageInstallCommand`; in JavaScript
an empty array is truthy, so only an *absent* `packageInstallCommand`
(embedded as `none`) trips the guard — `some []` passes it.  The
already-installed filter is computed once, before the loop. -/
def installPackages (execOk : String → Bool)
    (ctx : PersistentExecutionContext) (packages : List String) :
    InstallOutcome :=
  match languageTiers ctx.language with
  | none => ⟨ctx, [], .error ("Package installation not supported for " ++ ctx.language)⟩
  | some cfg =>
    match cfg.packageInstallCommand with
    | none => ⟨ctx, [], .error ("Package installation not supported for " ++ ctx.language)⟩
    | some installCmd =>
      let newPackages := packages.filter (fun p => !ctx.installedPackages.contains p)
      if newPackages.isEmpty then ⟨ctx, [], .ok ()⟩
      else installLoop execOk installCmd ctx newPackages

/-- One entry of the `persistentContexts` map: `(contextKey, context)` with
`contextKey = userId + ":" + language`. -/
abbrev ContextEntry := String × PersistentExecutionContext

/-- Stable insertion of a context entry into a list kept ascending by
`lastUsed` (an element is placed after every element whose `lastUsed` is not
greater). -/
def insertByLastUsed (x : ContextEntry) : List ContextEntry → List ContextEntry
  | [] => [x]
  | y :: ys =>
    if y.2.lastUsed ≤ x.2.lastUsed then y :: insertByLastUsed x ys
    else x :: y :: ys

/-- `userContexts.sort(([, a], [, b]) => a.lastUsed.getTime() - b.lastUsed.getTime())`
(sessionFreeExecutionService.ts line 261): a stable ascending sort by
`lastUsed`. -/
def sortByLastUsed (l : List ContextEntry) : List ContextEntry :=
  l.foldr insertByLastUsed []

/-- `MAX_CONTEXTS_PER_USER` (sessionFreeExecutionService.ts line 39). -/
def MAX_CONTEXTS_PER_USER : Nat := 5

/-- `CONTEXT_TIMEOUT` (sessionFreeExecutionService.ts line 38), in
milliseconds. -/
def CONTEXT_TIMEOUT : Nat := 30 * 60 * 1000

/-- Mutable service state of `SessionFreeExecutionService`:
the `persistentContexts` map, plus bookkeeping of the interaction with the
container engine (ids handed out by `createDynamicContainer`, how many
creations were requested, which containers were destroyed). -/
structure SvcState where
  persistentContexts : List ContextEntry
  nextContainer : Nat
  createCalls : Nat
  destroyed : List String
deriving Repr

/-- `SessionFreeExecutionService.enforceUserContextLimit` (lines 258-275):
collect the owner's entries, sort ascending by `lastUsed`, and `while` the
owner still holds `MAX_CONTEXTS_PER_USER` or more, shift the least-recently
used entry off, destroy its container and delete it from the map.  The loop
therefore evicts the first `length - (MAX_CONTEXTS_PER_USER - 1)` entries of
the sorted list when the owner is at or over the cap.  A `destroyContainer`
failure is caught and logged; the map delete happens regardless, so eviction
from the registry is unconditional. -/
def enforceUserContextLimit (reg : List ContextEntry) (userId : String) :
    List String × List ContextEntry :=
  let userContexts := reg.filter (fun e => e.2.userId = userId)
  let sorted := sortByLastUsed userContexts
  let evictCount :=
    if MAX_CONTEXTS_PER_USER ≤ sorted.length
    then sorted.length - (MAX_CONTEXTS_PER_USER - 1) else 0
  let evicted := sorted.take evictCount
  (evicted.map (fun e => e.2.containerId),
   evicted.foldl (fun acc e => mapDelete acc e.1) reg)

/-- The context record built by `getOrCreatePersistentContext` (lines
107-140): `contextId` is `userId-language-<Date.now()>`, the working
directory lives under `/app/workspace`, and the container id is the one
handed out by `createDynamicContainer` (embedded as the fresh id counter
`n`). -/
def newContextFor (userId language : String) (now : Nat) (n : Nat) :
    PersistentExecutionContext where
  contextId := userId ++ "-" ++ language ++ "-" ++ toString now
  containerId := "container-" ++ toString n
  language := language
  workingDir := "/app/workspace/" ++ (userId ++ "-" ++ language ++ "-" ++ toString now)
  installedPackages := []
  userId := userId
  lastUsed := now
  createdAt := now

/-- The tail of `SessionFreeExecutionService.getOrCreatePersistentContext`
from line 100 on (the creation path).  Faithful ordering: the per-owner
quota is enforced first, and only after that is the language profile
resolved — an unknown language throws `Unsupported language: ...` *after*
any quota eviction already happened.  Container creation hands out a fresh
id (`createDynamicContainer`) and the profile's setup commands run
best-effort (they do not touch the registry and are not modelled further);
`now` is `Date.now()`. -/
def getOrCreateAfterProbe (now : Nat) (userId language : String)
    (st : SvcState) : Except String PersistentExecutionContext × SvcState :=
  let contextKey := userId ++ ":" ++ language
  let enforced := enforceUserContextLimit st.persistentContexts userId
  let st1 : SvcState := { st with
    persistentContexts := enforced.2
    destroyed := st.destroyed ++ enforced.1 }
  match languageTiers language with
  | none => (.error ("Unsupported language: " ++ language), st1)
  | some _cfg =>
    (.ok (newContextFor userId language now st1.nextContainer),
     { st1 with
       persistentContexts := mapSet st1.persistentContexts contextKey
         (newContextFor userId language now st1.nextContainer)
       nextContainer := st1.nextContainer + 1
       createCalls := st1.createCalls + 1 })

/-- `SessionFreeExecutionService.getOrCreatePersistentContext`
(lines 82-146), entry point: a registered context that answers the liveness
probe is returned unchanged; a dead one is deleted and the creation path
(`getOrCreateAfterProbe`) runs. -/
def getOrCreatePersistentContext (probe : String → Bool) (now : Nat)
    (userId language : String) (st : SvcState) :
    Except String PersistentExecutionContext × SvcState :=
  let contextKey := userId ++ ":" ++ language
  match mapGet st.persistentContexts contextKey with
  | some ctx =>
    if probe ctx.containerId then
      (.ok ctx, st)
    else
      getOrCreateAfterProbe now userId language
        { st with persistentContexts := mapDelete st.persistentContexts contextKey }
  | none => getOrCreateAfterProbe now userId language st

/-- Modelled from the spec: the result of `DynamicDockerService.executeCommand`
(the `DynamicDockerService` source is not part of the repository snapshot).
Per spec section 4.2, `exec` returns a record of stdout, stderr and exitCode, and "a
program that runs and exits non-zero is a *successful* execution with failed
output, not an engine error", so the promise resolves with the non-zero
`exitCode` carried as data.  The services under `src/` read `output`,
`error` and (in the enhanced service) `executionTime` from this record. -/
structure ExecResult where
  output : String
  error : String
  executionTime : Nat
  exitCode : Int
deriving DecidableEq, Repr

/-- Result record of `executeCodeInContext`
(`Omit<SessionFreeExecutionResult, 'executionTime' | 'contextId'>`). -/
structure CodeResult where
  output : String
  error : String
  exitCode : Int
  files : List String
deriving DecidableEq, Repr

/-- Result record of `EnhancedCodeExecutionService.executeCodeInContainer`. -/
structure EnhancedCodeResult where
  output : String
  error : String
  executionTime : Nat
  exitCode : Int
deriving DecidableEq, Repr

/-- `SessionFreeExecutionService.generateFileName` (lines 242-256):
`code_<now>.<ext>` with the extension looked up for the lowercased language
name, defaulting to `txt`. -/
def generateFileName (language : String) (now : Nat) : String :=
  let lang := language.toLower
  let ext :=
    if lang = "python" then "py"
    else if lang = "javascript" then "js"
    else if lang = "java" then "java"
    else if lang = "cpp" then "cpp"
    else if lang = "go" then "go"
    else if lang = "rust" then "rs"
    else if lang = "php" then "php"
    else if lang = "ruby" then "rb"
    else "txt"
  "code_" ++ toString now ++ "." ++ ext

/-- Node `path.basename` for the slash-separated paths produced here. -/
def basename (s : String) : String :=
  (s.splitOn "/").getLastD s

/-- `SessionFreeExecutionService.getCreatedFiles` (lines 222-240): run `find`
in the working directory and, when it printed anything, split on newlines,
drop blank lines and keep base names. -/
def getCreatedFiles (exec : String → ExecResult) (workingDir : String) :
    List String :=
  let result := exec ("find \"" ++ workingDir ++ "\" -type f 2>/dev/null || echo \"\"")
  if result.output = "" then []
  else
    ((result.output.splitOn "\n").filter (fun line => line.trim ≠ "")).map
      (fun line => basename line.trim)

/-- `SessionFreeExecutionService.executeCodeInContext` (lines 148-181).
`exec` is the `dockerService.executeCommand` oracle.  The code file is
written into the container (an exec side effect that does not influence the
returned record), the profile's run command is built, optionally prefixed by
an `echo "<stdin>" |` pipe, and executed; **the returned record always
carries `exitCode: 0`** (line 178), whatever the program's real exit status
was. -/
def executeCodeInContext (exec : String → ExecResult)
    (ctx : PersistentExecutionContext) (_code : String)
    (reqFileName : Option String) (input : Option String) (now : Nat) :
    Except String CodeResult :=
  match languageTiers ctx.language with
  | none => .error ("Language configuration not found: " ++ ctx.language)
  | some cfg =>
    let fileName := reqFileName.getD (generateFileName ctx.language now)
    let finalCommand :=
      match input with
      | some stdin =>
        "echo \"" ++ stdin.replace "\"" "\\\"" ++ "\" | "
          ++ joinSpace (cfg.executeCommand fileName)
      | none => joinSpace (cfg.executeCommand fileName)
    let fullCommand := "cd \"" ++ ctx.workingDir ++ "\" && " ++ finalCommand
    let result := exec fullCommand
    let files := getCreatedFiles exec ctx.workingDir
    .ok { output := result.output
          error := result.error
          exitCode := 0
          files := files }

/-- `EnhancedCodeExecutionService.executeCodeInContainer` (lines 776-801).
The returned `exitCode` is `result.error ? 1 : 0`: it is guessed from stderr
being non-empty, the exec result's own exit status is never consulted. -/
def executeCodeInContainer (exec : String → ExecResult)
    (language fileName : String) (input : Option String) :
    Except String EnhancedCodeResult :=
  match languageTiers language with
  | none => .error ("Language configuration not found: " ++ language)
  | some cfg =>
    let executeCmd := joinSpace (cfg.executeCommand fileName)
    let fullCommand :=
      match input with
      | some stdin => "echo '" ++ stdin ++ "' | " ++ executeCmd
      | none => executeCmd
    let result := exec fullCommand
    .ok { output := result.output
          error := result.error
          executionTime := result.executionTime
          exitCode := if result.error = "" then 0 else 1 }

/-- `SharedTerminalService.MAX_OUTPUT_SIZE` (sharedTerminalService.ts
line 38). -/
def MAX_OUTPUT_SIZE : Nat := 50000

/-- A character the ANSI-color regex `\x1b\[[0-9;]*m` accepts between the
bracket and the final `m`. -/
def isAnsiParamChar (c : Char) : Bool :=
  (decide ('0' ≤ c) && decide (c ≤ '9')) || c = ';'

/-- Global replacement of `/\x1b\[[0-9;]*m/g` by the empty string
(sanitizeOutput, line 800): scan left to right; at each escape character try
to read `[`, a run of parameter characters and a final `m`, dropping the
whole sequence on success, otherwise keep the character and continue with the
next one.  Because `m` is not a parameter character, the greedy run followed
by the mandatory `m` is exactly the regex's match.  The first argument is a
step budget making the recursion structural. -/
def stripAnsiColorGo : Nat → List Char → List Char
  | 0, l => l
  | _ + 1, [] => []
  | fuel + 1, c :: rest =>
    if c = '\x1b' then
      match rest with
      | '[' :: rest2 =>
        match rest2.dropWhile isAnsiParamChar with
        | 'm' :: rest4 => stripAnsiColorGo fuel rest4
        | _ => c :: stripAnsiColorGo fuel rest
      | _ => c :: stripAnsiColorGo fuel rest
    else c :: stripAnsiColorGo fuel rest

/-- The scan of `stripAnsiColorGo` started with enough fuel: every step
consumes at least one character of the list, so `l.length` steps always
finish the scan and the zero-fuel fallback is never reached. -/
def stripAnsiColor (l : List Char) : List Char := stripAnsiColorGo l.length l

/-- The character class `[\x00-\x08\x0B\x0C\x0E-\x1F\x7F]` removed by
sanitizeOutput (line 801): every ASCII control character and DEL except
tab (9), newline (10) and carriage return (13). -/
def isStrippedCtrl (c : Char) : Bool :=
  decide (c.toNat ≤ 0x08) || c.toNat = 0x0B || c.toNat = 0x0C ||
    (decide (0x0E ≤ c.toNat) && decide (c.toNat ≤ 0x1F)) || c.toNat = 0x7F

/-- The second replacement of sanitizeOutput: drop the stripped control
characters. -/
def stripControlChars (l : List Char) : List Char :=
  l.filter (fun c => !isStrippedCtrl c)

/-- The visible truncation marker `'\n[Output truncated...]\n'`
(sanitizeOutput, line 805). -/
def truncationMarker : List Char :=
  "\n[Output truncated...]\n".data

/-- `SharedTerminalService.sanitizeOutput` (lines 797-809), on the
character sequence of the chunk: strip ANSI color sequences, strip the
control-character class, then cap at `MAX_OUTPUT_SIZE` characters with the
visible truncation marker appended when the cap was exceeded. -/
def sanitizeOutput (output : List Char) : List Char :=
  let sanitized := stripControlChars (stripAnsiColor output)
  if MAX_OUTPUT_SIZE < sanitized.length then
    sanitized.take MAX_OUTPUT_SIZE ++ truncationMarker
  else sanitized

/-- `TerminalSession` (sharedTerminalService.ts lines 11-20), dates in
milliseconds; the dockerode handles (`container`, `execInstance`) carry no
registry-relevant state and are omitted.  Note the interface has a
`startTime` but no last-activity field. -/
structure TerminalSessionState where
  id : String
  containerId : String
  roomId : String
  userId : String
  isActive : Bool
  startTime : Nat
deriving DecidableEq, Repr

/-- `RoomTerminal` (sharedTerminalService.ts lines 22-29); `activeSessions`
is a map keyed by socket id. -/
structure RoomTerminalState where
  roomId : String
  containerId : String
  activeSessions : List (String × TerminalSessionState)
  createdAt : Nat
  lastActivity : Nat
deriving DecidableEq, Repr

/-- The two registries of `SharedTerminalService`: `roomTerminals` keyed by
room id and `userSessions` keyed by socket id. -/
structure TerminalServiceState where
  roomTerminals : List (String × RoomTerminalState)
  userSessions : List (String × TerminalSessionState)
deriving DecidableEq, Repr

/-- `maxInactiveTime` of `cleanupInactiveSessions` (sharedTerminalService.ts
line 847): 30 minutes in milliseconds. -/
def SESSION_MAX_INACTIVE_TIME : Nat := 30 * 60 * 1000

/-- `maxUnusedTime` of `cleanupUnusedRoomTerminals` (sharedTerminalService.ts
line 860): 1 hour in milliseconds. -/
def ROOM_MAX_UNUSED_TIME : Nat := 60 * 60 * 1000

/-- In-place mutation of the value stored under a key of a JS map (the map
holds a reference, so mutating the record mutates the map's entry). -/
def mapUpdate {α : Type} (m : List (String × α)) (k : String) (f : α → α) :
    List (String × α) :=
  m.map (fun e => if e.1 = k then (e.1, f e.2) else e)

/-- The `terminal-input` handler (sharedTerminalService.ts lines 125-195) as
far as the registries are concerned: with no active session for the socket
nothing changes; otherwise the input bytes are written to the exec stream (a
container side effect) and `roomTerminal.lastActivity` of the session's room
is set to the current time.  The session record itself — in particular its
`startTime` — is never touched. -/
def handleTerminalInput (st : TerminalServiceState) (socketId : String)
    (_input : String) (now : Nat) : TerminalServiceState :=
  match mapGet st.userSessions socketId with
  | none => st
  | some session =>
    if session.isActive then
      { st with
        roomTerminals := mapUpdate st.roomTerminals session.roomId
          (fun r => { r with lastActivity := now }) }
    else st

/-- `SharedTerminalService.handleDisconnect` (lines 771-795): close the
session's stream (container side effect), remove the session from its room's
`activeSessions` and from `userSessions`. -/
def handleDisconnect (st : TerminalServiceState) (socketId : String) :
    TerminalServiceState :=
  match mapGet st.userSessions socketId with
  | none => st
  | some session =>
    { roomTerminals := mapUpdate st.roomTerminals session.roomId
        (fun r => { r with activeSessions := mapDelete r.activeSessions socketId })
      userSessions := mapDelete st.userSessions socketId }

/-- `SharedTerminalService.cleanupInactiveSessions` (lines 845-856): for
every registered session, disconnect it when `now - startTime` exceeds
`SESSION_MAX_INACTIVE_TIME`.  The criterion reads the session's `startTime`
only. -/
def cleanupInactiveSessions (st : TerminalServiceState) (now : Nat) :
    TerminalServiceState :=
  st.userSessions.foldl
    (fun acc e =>
      if SESSION_MAX_INACTIVE_TIME < now - e.2.startTime
      then handleDisconnect acc e.1 else acc)
    st

/-- `SharedTerminalService.cleanupUnusedRoomTerminals` (lines 858-880): a
room is destroyed (container stopped and removed, entry deleted) exactly when
it is idle past `ROOM_MAX_UNUSED_TIME` **and** has zero active sessions and
the container teardown succeeds (`destroyOk`; on a teardown error the entry
is kept). -/
def cleanupUnusedRoomTerminals (destroyOk : String → Bool)
    (st : TerminalServiceState) (now : Nat) : TerminalServiceState :=
  { st with
    roomTerminals := st.roomTerminals.filter (fun e =>
      !(decide (ROOM_MAX_UNUSED_TIME < now - e.2.lastActivity)
        && e.2.activeSessions.isEmpty && destroyOk e.2.containerId)) }

/-- A sequence of `terminal-input` events `(socketId, input, time)` applied in
order. -/
def applyTerminalInputs (st : TerminalServiceState)
    (events : List (String × String × Nat)) : TerminalServiceState :=
  events.foldl (fun acc ev => handleTerminalInput acc ev.1 ev.2.1 ev.2.2) st

/-! ### Concrete fixtures used by witnesses and counterexamples -/

/-- A persistent context fixture. -/
def mkCtx (user lang containerId : String) (lastUsed : Nat) :
    PersistentExecutionContext where
  contextId := user ++ "-" ++ lang ++ "-0"
  containerId := containerId
  language := lang
  workingDir := "/app/workspace/" ++ user ++ "-" ++ lang ++ "-0"
  installedPackages := []
  userId := user
  lastUsed := lastUsed
  createdAt := 0

/-- A service state in which user alice holds exactly
`MAX_CONTEXTS_PER_USER` live contexts; the javascript one is the least
recently used.  The ruby context is a leftover from a profile that is no
longer registered. -/
def aliceFullState : SvcState where
  persistentContexts :=
    [("alice:python", mkCtx "alice" "python" "c1" 3),
     ("alice:javascript", mkCtx "alice" "javascript" "c2" 1),
     ("alice:go", mkCtx "alice" "go" "c3" 4),
     ("alice:cpp", mkCtx "alice" "cpp" "c4" 2),
     ("alice:ruby", mkCtx "alice" "ruby" "c5" 6)]
  nextContainer := 10
  createCalls := 0
  destroyed := []

/-- A fresh python context fixture. -/
def pyCtxFixture : PersistentExecutionContext := mkCtx "u1" "python" "c0" 0

/-- A fresh cpp context fixture. -/
def cppCtxFixture : PersistentExecutionContext := mkCtx "u1" "cpp" "c9" 0

/-- An exec oracle for a python program that raised an uncaught exception:
the process printed a traceback on stderr and exited with status 1; per the
spec the runtime resolves with that non-zero exit code carried as data. -/
def tracebackExec : String → ExecResult := fun _ =>
  { output := ""
    error := "Traceback (most recent call last):\n  File \"code_0.py\", line 1, in <module>\nZeroDivisionError\n"
    executionTime := 5
    exitCode := 1 }

/-- An exec oracle for a program that exited with status 3 without writing
to stderr (for example `import sys; sys.exit(3)`). -/
def silentExitExec : String → ExecResult := fun _ =>
  { output := "", error := "", executionTime := 5, exitCode := 3 }

/-- A terminal session fixture, registered under socket id `sock1`. -/
def sessionFixture : TerminalSessionState where
  id := "sess1"
  containerId := "rc1"
  roomId := "room1"
  userId := "alice"
  isActive := true
  startTime := 0

/-- A room fixture holding `sessionFixture` as its one active session. -/
def roomFixture : RoomTerminalState where
  roomId := "room1"
  containerId := "rc1"
  activeSessions := [("sock1", sessionFixture)]
  createdAt := 0
  lastActivity := 0

/-- The terminal-service state holding `roomFixture` and its session. -/
def terminalStateFixture : TerminalServiceState where
  roomTerminals := [("room1", roomFixture)]
  userSessions := [("sock1", sessionFixture)]

/-- The empty service state. -/
def emptySvcState : SvcState := ⟨[], 0, 0, []⟩

/-- The context created by the first `getOrCreatePersistentContext` call for
(alice, python) on the empty state at time 5. -/
def firstCallCtx : PersistentExecutionContext where
  contextId := "alice-python-5"
  containerId := "container-0"
  language := "python"
  workingDir := "/app/workspace/alice-python-5"
  installedPackages := []
  userId := "alice"
  lastUsed := 5
  createdAt := 5

/-- The service state after that first call. -/
def firstCallState : SvcState where
  persistentContexts := [("alice:python", firstCallCtx)]
  nextContainer := 1
  createCalls := 1
  destroyed := []

/-! ### Association-list (JS `Map`) lemmas -/

theorem mapGet_eq_none_iff {α : Type} (m : List (String × α)) (k : String) :
    mapGet m k = none ↔ ∀ e ∈ m, e.1 ≠ k := by
  induction m with
  | nil => simp [mapGet]
  | cons e rest ih =>
    by_cases h : e.1 = k <;> simp [mapGet, h, ih]

theorem mapGet_some_mem {α : Type} {m : List (String × α)} {k : String}
    {v : α} (h : mapGet m k = some v) : (k, v) ∈ m := by
  induction m with
  | nil => simp [mapGet] at h
  | cons e rest ih =>
    obtain ⟨a, b⟩ := e
    by_cases he : a = k
    · subst he
      simp only [mapGet, if_pos] at h
      cases h
      exact List.mem_cons_self _ _
    · simp only [mapGet, he, if_neg, not_false_iff] at h
      exact List.mem_cons_of_mem _ (ih h)

theorem mapGet_mapSet_self {α : Type} (m : List (String × α)) (k : String)
    (v : α) : mapGet (mapSet m k v) k = some v := by
  induction m with
  | nil => simp [mapSet, mapGet]
  | cons e rest ih =>
    by_cases h : e.1 = k <;> simp [mapSet, mapGet, h, ih]

theorem mapDelete_sublist {α : Type} (m : List (String × α)) (k : String) :
    List.Sublist (mapDelete m k) m := by
  induction m with
  | nil => simp [mapDelete]
  | cons e rest ih =>
    by_cases h : e.1 = k
    · simpa [mapDelete, h] using List.sublist_cons_self e rest
    · simpa [mapDelete, h] using ih.cons₂ e

theorem mem_mapDelete {α : Type} {m : List (String × α)} {k : String}
    {e : String × α} (h : e ∈ mapDelete m k) : e ∈ m :=
  (mapDelete_sublist m k).subset h

theorem mapGet_none_mapDelete {α : Type} {m : List (String × α)}
    {k j : String} (h : mapGet m k = none) :
    mapGet (mapDelete m j) k = none := by
  rw [mapGet_eq_none_iff] at h ⊢
  exact fun e he => h e (mem_mapDelete he)

theorem mapGet_mapDelete_self_of_nodup {α : Type} {m : List (String × α)}
    (hnd : (m.map Prod.fst).Nodup) (k : String) :
    mapGet (mapDelete m k) k = none := by
  induction m with
  | nil => simp [mapDelete, mapGet]
  | cons e rest ih =>
    simp only [List.map_cons, List.nodup_cons] at hnd
    by_cases h : e.1 = k
    · simp only [mapDelete, h, if_pos]
      rw [mapGet_eq_none_iff]
      intro f hf hfk
      exact hnd.1 (h ▸ hfk ▸ List.mem_map_of_mem Prod.fst hf)
    · simp [mapDelete, mapGet, h, ih hnd.2]

theorem mapSet_of_absent {α : Type} {m : List (String × α)} {k : String}
    (h : mapGet m k = none) (v : α) : mapSet m k v = m ++ [(k, v)] := by
  induction m with
  | nil => simp [mapSet]
  | cons e rest ih =>
    by_cases he : e.1 = k
    · simp [mapGet, he] at h
    · simp only [mapGet, he, if_neg, not_false_iff] at h
      simp [mapSet, he, ih h]

theorem mapDelete_eq_filter_of_nodup {α : Type} {m : List (String × α)}
    (hnd : (m.map Prod.fst).Nodup) (k : String) :
    mapDelete m k = m.filter (fun e => !decide (e.1 = k)) := by
  induction m with
  | nil => simp [mapDelete]
  | cons e rest ih =>
    simp only [List.map_cons, List.nodup_cons] at hnd
    by_cases h : e.1 = k
    · simp only [mapDelete, h, if_pos, List.filter_cons, decide_True,
        Bool.not_true, if_neg, reduceIte]
      refine ((List.filter_eq_self).2 fun f hf => ?_).symm
      simp only [Bool.not_eq_true', decide_eq_false_iff_not]
      intro hfk
      exact hnd.1 (h ▸ hfk ▸ List.mem_map_of_mem Prod.fst hf)
    · simp [mapDelete, List.filter_cons, h, ih hnd.2]

theorem mapDelete_length_of_mem {α : Type} {m : List (String × α)}
    {k : String} {v : α} (h : (k, v) ∈ m) :
    (mapDelete m k).length + 1 = m.length := by
  induction m with
  | nil => simp at h
  | cons e rest ih =>
    by_cases he : e.1 = k
    · simp [mapDelete, he]
    · have : (k, v) ∈ rest := by
        rcases List.mem_cons.1 h with rfl | hm
        · simp at he
        · exact hm
      simp [mapDelete, he, ih this]

/-! ### JS `Set.add` lemmas -/

theorem contains_setAdd (l : List String) (x y : String) :
    (setAdd l x).contains y = true ↔ l.contains y = true ∨ y = x := by
  unfold setAdd
  by_cases h : l.contains x
  · simp only [h, if_pos, List.elem_iff]
    rw [List.elem_iff] at h
    constructor
    · exact fun hy => Or.inl hy
    · rintro (hy | rfl)
      · exact hy
      · exact h
  · rw [if_neg h]
    simp [List.elem_iff]

theorem contains_foldl_setAdd (l : List String) (base : List String)
    (y : String) :
    (l.foldl setAdd base).contains y = true ↔
      base.contains y = true ∨ y ∈ l := by
  induction l generalizing base with
  | nil => simp
  | cons p rest ih =>
    simp only [List.foldl_cons, ih, contains_setAdd, List.mem_cons]
    tauto

/-! ### `sortByLastUsed` lemmas -/

theorem insertByLastUsed_perm (x : ContextEntry) (l : List ContextEntry) :
    List.Perm (insertByLastUsed x l) (x :: l) := by
  induction l with
  | nil => simp [insertByLastUsed]
  | cons y ys ih =>
    by_cases h : y.2.lastUsed ≤ x.2.lastUsed
    · simp only [insertByLastUsed, h, if_pos]
      exact (ih.cons y).trans (List.Perm.swap x y ys)
    · simp [insertByLastUsed, h]

theorem sortByLastUsed_perm (l : List ContextEntry) :
    List.Perm (sortByLastUsed l) l := by
  induction l with
  | nil => simp [sortByLastUsed]
  | cons y ys ih =>
    exact (insertByLastUsed_perm y (sortByLastUsed ys)).trans (ih.cons y)

theorem pairwise_insertByLastUsed (x : ContextEntry) (l : List ContextEntry)
    (h : l.Pairwise (fun a b => a.2.lastUsed ≤ b.2.lastUsed)) :
    (insertByLastUsed x l).Pairwise (fun a b => a.2.lastUsed ≤ b.2.lastUsed) := by
  induction l with
  | nil => simp [insertByLastUsed]
  | cons y ys ih =>
    rw [List.pairwise_cons] at h
    by_cases hle : y.2.lastUsed ≤ x.2.lastUsed
    · simp only [insertByLastUsed, hle, if_pos, List.pairwise_cons]
      refine ⟨fun z hz => ?_, ih h.2⟩
      have hz2 : z ∈ x :: ys := ((insertByLastUsed_perm x ys).mem_iff).1 hz
      rcases List.mem_cons.1 hz2 with rfl | hz3
      · exact hle
      · exact h.1 z hz3
    · simp only [insertByLastUsed, hle, if_neg, not_false_iff,
        List.pairwise_cons, List.mem_cons]
      have hxy : x.2.lastUsed ≤ y.2.lastUsed := le_of_not_le hle
      refine ⟨?_, h⟩
      rintro z (rfl | hz)
      · exact hxy
      · exact hxy.trans (h.1 z hz)

theorem pairwise_sortByLastUsed (l : List ContextEntry) :
    (sortByLastUsed l).Pairwise (fun a b => a.2.lastUsed ≤ b.2.lastUsed) := by
  induction l with
  | nil => simp [sortByLastUsed]
  | cons y ys ih => exact pairwise_insertByLastUsed y (sortByLastUsed ys) ih

theorem sortByLastUsed_head_min {l : List ContextEntry} {y : ContextEntry}
    {ys : List ContextEntry} (h : sortByLastUsed l = y :: ys) :
    ∀ z ∈ l, y.2.lastUsed ≤ z.2.lastUsed := by
  intro z hz
  have hzs : z ∈ y :: ys := h ▸ ((sortByLastUsed_perm l).mem_iff).2 hz
  rcases List.mem_cons.1 hzs with rfl | hz2
  · exact le_refl _
  · have hp := pairwise_sortByLastUsed l
    rw [h, List.pairwise_cons] at hp
    exact hp.1 z hz2

/-! ### `installPackages` lemmas -/

theorem installLoop_commands_all_ok (execOk : String → Bool)
    (ic : List String) (hok : ∀ c, execOk c = true) :
    ∀ (l : List String) (ctx : PersistentExecutionContext),
      (installLoop execOk ic ctx l).commands
        = l.map (fun p => joinSpace (ic ++ [p])) := by
  intro l
  induction l with
  | nil => intro ctx; simp [installLoop]
  | cons p rest ih =>
    intro ctx
    simp [installLoop, hok, ih]

theorem installLoop_fail_split (execOk : String → Bool) (ic : List String)
    (x : String) (post : List String)
    (hx : execOk (joinSpace (ic ++ [x])) = false) :
    ∀ (pre : List String) (ctx : PersistentExecutionContext),
      (∀ p ∈ pre, execOk (joinSpace (ic ++ [p])) = true) →
      installLoop execOk ic ctx (pre ++ x :: post) =
        ⟨{ ctx with installedPackages := pre.foldl setAdd ctx.installedPackages },
         pre.map (fun p => joinSpace (ic ++ [p])) ++ [joinSpace (ic ++ [x])],
         .error ("Failed to install package: " ++ x)⟩ := by
  intro pre
  induction pre with
  | nil =>
    intro ctx _
    simp [installLoop, hx]
  | cons p rest ih =>
    intro ctx hpre
    have hp : execOk (joinSpace (ic ++ [p])) = true :=
      hpre p (List.mem_cons_self _ _)
    simp only [List.cons_append, installLoop, hp, if_pos, List.append_eq]
    rw [ih _ (fun q hq => hpre q (List.mem_cons_of_mem _ hq))]
    simp

/-- C4 (amended): with every install command resolving, `installPackages`
issues exactly one install command per *occurrence* of a name in the batch
that is not already recorded in `context.installedPackages`; names already
recorded cause none.  Because the already-installed filter is computed once,
before the loop, a name occurring twice in the same batch is **not**
de-duplicated and causes two install commands. -/
theorem installPackages_commands_eq (execOk : String → Bool)
    (ctx : PersistentExecutionContext) (pkgs : List String)
    (cfg : LanguageTier) (installCmd : List String)
    (hcfg : languageTiers ctx.language = some cfg)
    (hic : cfg.packageInstallCommand = some installCmd)
    (hok : ∀ c, execOk c = true) :
    (installPackages execOk ctx pkgs).commands
      = (pkgs.filter (fun p => !ctx.installedPackages.contains p)).map
          (fun p => joinSpace (installCmd ++ [p])) := by
  unfold installPackages
  rw [hcfg]
  simp only [hic]
  by_cases hempty :
      (pkgs.filter (fun p => !ctx.installedPackages.contains p)).isEmpty
  · rw [if_pos hempty]
    rw [List.isEmpty_iff] at hempty
    rw [hempty]
    rfl
  · rw [if_neg hempty]
    exact installLoop_commands_all_ok execOk installCmd hok _ ctx

/-- Witness for C4's amended theorem at a concrete input: `requests` is
already installed and causes no command, while the duplicated `numpy`
causes two. -/
theorem installPackages_commands_eq_witness :
    (installPackages (fun _ => true)
        { pyCtxFixture with installedPackages := ["requests"] }
        ["numpy", "requests", "numpy"]).commands
      = ["pip install --no-cache-dir numpy", "pip install --no-cache-dir numpy"] := by
  rw [installPackages_commands_eq (fun _ => true)
    { pyCtxFixture with installedPackages := ["requests"] }
    ["numpy", "requests", "numpy"] pythonTier ["pip", "install", "--no-cache-dir"]
    rfl rfl (fun _ => rfl)]
  decide

/-- C4 counterexample: the batch `["numpy", "numpy"]` on a fresh python
context issues the `numpy` install command twice, not exactly once as
claimed. -/
theorem installPackages_duplicate_two_commands :
    ((installPackages (fun _ => true) pyCtxFixture ["numpy", "numpy"]).commands
      = ["pip install --no-cache-dir numpy", "pip install --no-cache-dir numpy"])
    ∧ (installPackages (fun _ => true) pyCtxFixture ["numpy", "numpy"]).commands.length ≠ 1 :=
  ⟨rfl, by decide⟩

/-- C5 (amended): when the install command of some batch element fails,
`installPackages` throws the aggregate error
`Failed to install package: <name>` — it does not return a per-package
result list.  Names after the failed one are not attempted (the failed name
is the last one a command was issued for), names that succeeded before it
remain recorded in `context.installedPackages`, and the failed name is not
recorded. -/
theorem installPackages_first_failure (execOk : String → Bool)
    (ctx : PersistentExecutionContext) (pkgs : List String)
    (cfg : LanguageTier) (installCmd : List String)
    (pre : List String) (x : String) (post : List String)
    (hcfg : languageTiers ctx.language = some cfg)
    (hic : cfg.packageInstallCommand = some installCmd)
    (hsplit : pkgs.filter (fun p => !ctx.installedPackages.contains p)
      = pre ++ x :: post)
    (hpre : ∀ p ∈ pre, execOk (joinSpace (installCmd ++ [p])) = true)
    (hx : execOk (joinSpace (installCmd ++ [x])) = false) :
    (installPackages execOk ctx pkgs).result
      = .error ("Failed to install package: " ++ x)
    ∧ (installPackages execOk ctx pkgs).commands
      = pre.map (fun p => joinSpace (installCmd ++ [p]))
          ++ [joinSpace (installCmd ++ [x])]
    ∧ (installPackages execOk ctx pkgs).ctx.installedPackages
      = pre.foldl setAdd ctx.installedPackages
    ∧ (installPackages execOk ctx pkgs).ctx.installedPackages.contains x
      = false := by
  have hxmem : x ∈ pkgs.filter (fun p => !ctx.installedPackages.contains p) := by
    rw [hsplit]
    exact List.mem_append_right _ (List.mem_cons_self _ _)
  have hxnew : ctx.installedPackages.contains x = false := by
    have := (List.mem_filter.1 hxmem).2
    simpa using this
  have hxpre : x ∉ pre := by
    intro hxp
    rw [hpre x hxp] at hx
    cases hx
  have hrun : installPackages execOk ctx pkgs
      = ⟨{ ctx with installedPackages := pre.foldl setAdd ctx.installedPackages },
         pre.map (fun p => joinSpace (installCmd ++ [p]))
           ++ [joinSpace (installCmd ++ [x])],
         .error ("Failed to install package: " ++ x)⟩ := by
    unfold installPackages
    rw [hcfg]
    simp only [hic]
    rw [hsplit]
    rw [if_neg (by simp)]
    exact installLoop_fail_split execOk installCmd x post hx pre ctx hpre
  refine ⟨by rw [hrun], by rw [hrun], by rw [hrun], ?_⟩
  rw [hrun]
  simp only
  by_contra hcon
  rw [Bool.not_eq_false] at hcon
  rcases (contains_foldl_setAdd pre ctx.installedPackages x).1 hcon with hb | hp
  · rw [hxnew] at hb
    cases hb
  · exact hxpre hp

/-- Witness for C5's amended theorem: in the batch
`["requests", "badpkg", "flask"]` only the `requests` install command
resolves; the call throws naming `badpkg`, issues no command for `flask`,
keeps `requests` recorded and does not record `badpkg`. -/
theorem installPackages_first_failure_witness :
    (installPackages (fun c => c = "pip install --no-cache-dir requests")
        pyCtxFixture ["requests", "badpkg", "flask"]).result
      = .error ("Failed to install package: " ++ "badpkg")
    ∧ (installPackages (fun c => c = "pip install --no-cache-dir requests")
        pyCtxFixture ["requests", "badpkg", "flask"]).commands
      = ["requests"].map (fun p => joinSpace (["pip", "install", "--no-cache-dir"] ++ [p]))
          ++ [joinSpace (["pip", "install", "--no-cache-dir"] ++ ["badpkg"])]
    ∧ (installPackages (fun c => c = "pip install --no-cache-dir requests")
        pyCtxFixture ["requests", "badpkg", "flask"]).ctx.installedPackages
      = ["requests"].foldl setAdd pyCtxFixture.installedPackages
    ∧ (installPackages (fun c => c = "pip install --no-cache-dir requests")
        pyCtxFixture ["requests", "badpkg", "flask"]).ctx.installedPackages.contains "badpkg"
      = false :=
  installPackages_first_failure _ pyCtxFixture _ pythonTier
    ["pip", "install", "--no-cache-dir"] ["requests"] "badpkg" ["flask"]
    rfl rfl (by decide) (by decide) (by decide)

/-- C5 counterexample: at the concrete failing batch the call's outcome is
the thrown aggregate error, not a returned per-package result list marking
the name `ok: false`. -/
theorem installPackages_failure_throws :
    (installPackages (fun _ => false) pyCtxFixture ["nonexistent-pkg-xyz"]).result
      = .error "Failed to install package: nonexistent-pkg-xyz"
    ∧ (installPackages (fun _ => false) pyCtxFixture
        ["nonexistent-pkg-xyz"]).ctx.installedPackages = [] :=
  ⟨rfl, rfl⟩

/-- C6: the cpp profile's `packageInstallCommand` is the empty array, which
is truthy in JavaScript, so `installPackages` on a cpp context is **not**
rejected with `Package installation not supported for cpp`; instead the
"install command" consisting of the bare package name is issued, and on
success the name is even recorded as installed. -/
theorem installPackages_cpp_not_rejected :
    (installPackages (fun _ => true) cppCtxFixture ["boost"]).result = .ok ()
    ∧ (installPackages (fun _ => true) cppCtxFixture ["boost"]).commands = ["boost"]
    ∧ (installPackages (fun _ => true) cppCtxFixture ["boost"]).ctx.installedPackages
      = ["boost"]
    ∧ cppTier.packageInstallCommand = some [] :=
  ⟨rfl, rfl, rfl, rfl⟩

/-- C1: a program run that exits non-zero is *not* reported with a non-zero
`exitCode`.  `SessionFreeExecutionService.executeCodeInContext` returns
`exitCode: 0` unconditionally (line 178): for a python run whose process
exited with status 1 printing a traceback to stderr, the returned result has
`exitCode = 0` (with the traceback in `error`).  The enhanced service's
`executeCodeInContainer` guesses `exitCode` from stderr being non-empty: for
a program exiting with status 3 and empty stderr it also reports
`exitCode = 0`. -/
theorem executeCode_reports_zero_for_failing_program :
    (tracebackExec "cmd").exitCode = 1
    ∧ (∃ r, executeCodeInContext tracebackExec pyCtxFixture
          "raise ZeroDivisionError" none none 0 = .ok r
        ∧ r.exitCode = 0 ∧ r.error ≠ "")
    ∧ (silentExitExec "cmd").exitCode = 3
    ∧ (∃ r, executeCodeInContainer silentExitExec "python" "code.py" none = .ok r
        ∧ r.exitCode = 0 ∧ r.error = "") :=
  ⟨rfl,
   ⟨{ output := ""
      error := "Traceback (most recent call last):\n  File \"code_0.py\", line 1, in <module>\nZeroDivisionError\n"
      exitCode := 0
      files := [] }, rfl, rfl, by decide⟩,
   rfl,
   ⟨{ output := "", error := "", executionTime := 5, exitCode := 0 },
    rfl, rfl, rfl⟩⟩

/-! ### `getOrCreatePersistentContext` lemmas -/

theorem getOrCreateAfterProbe_registers {now : Nat} {u lang : String}
    {st st1 : SvcState} {ctx : PersistentExecutionContext}
    (h : getOrCreateAfterProbe now u lang st = (.ok ctx, st1)) :
    mapGet st1.persistentContexts (u ++ ":" ++ lang) = some ctx := by
  unfold getOrCreateAfterProbe at h
  cases hl : languageTiers lang with
  | none =>
    rw [hl] at h
    simp only [Prod.mk.injEq] at h
    cases h.1
  | some cfg =>
    rw [hl] at h
    simp only [Prod.mk.injEq, Except.ok.injEq] at h
    obtain ⟨rfl, rfl⟩ := h
    exact mapGet_mapSet_self _ _ _

theorem getOrCreate_registers (probe : String → Bool) (now : Nat)
    (u lang : String) (st : SvcState) {ctx : PersistentExecutionContext}
    {st1 : SvcState}
    (h : getOrCreatePersistentContext probe now u lang st = (.ok ctx, st1)) :
    mapGet st1.persistentContexts (u ++ ":" ++ lang) = some ctx := by
  unfold getOrCreatePersistentContext at h
  cases hg : mapGet st.persistentContexts (u ++ ":" ++ lang) with
  | none =>
    simp only [hg] at h
    exact getOrCreateAfterProbe_registers h
  | some c =>
    by_cases hp : probe c.containerId
    · simp only [hg, hp, if_true, Prod.mk.injEq, Except.ok.injEq] at h
      obtain ⟨rfl, rfl⟩ := h
      exact hg
    · simp only [hg, hp, if_false, Bool.false_eq_true] at h
      exact getOrCreateAfterProbe_registers h

/-- C3: `getOrCreate` is idempotent while the sandbox is alive.  If a call
returned context `ctx1` leaving state `st1`, and at the time of the next
call for the same (owner, language) the liveness probe on `ctx1.containerId`
answers, then the second call returns the very same context — bound to the
same `containerId` — and leaves the state untouched: in particular
`createCalls` is unchanged, so no container-create call is issued. -/
theorem getOrCreate_idempotent_while_alive (probe1 probe2 : String → Bool)
    (now1 now2 : Nat) (u lang : String) (st : SvcState)
    {ctx1 : PersistentExecutionContext} {st1 : SvcState}
    (h1 : getOrCreatePersistentContext probe1 now1 u lang st = (.ok ctx1, st1))
    (h2 : probe2 ctx1.containerId = true) :
    getOrCreatePersistentContext probe2 now2 u lang st1 = (.ok ctx1, st1) := by
  unfold getOrCreatePersistentContext
  simp only [getOrCreate_registers probe1 now1 u lang st h1, h2, if_true]

/-- Witness for C3 at a concrete run: creating (alice, python) on the empty
state and calling again with an always-alive probe returns the same context
and does not change the state (no second create call). -/
theorem getOrCreate_idempotent_while_alive_witness :
    getOrCreatePersistentContext (fun _ => true) 6 "alice" "python"
      firstCallState = (.ok firstCallCtx, firstCallState) :=
  getOrCreate_idempotent_while_alive (fun _ => true) (fun _ => true) 5 6
    "alice" "python" emptySvcState rfl rfl

theorem foldl_mapDelete_none {m : List ContextEntry} {k : String}
    (h : mapGet m k = none) (l : List ContextEntry) :
    mapGet (l.foldl (fun acc e => mapDelete acc e.1) m) k = none := by
  induction l generalizing m with
  | nil => exact h
  | cons e rest ih => exact ih (mapGet_none_mapDelete h)

theorem foldl_mapDelete_subset (m : List ContextEntry)
    (l : List ContextEntry) :
    ∀ e ∈ l.foldl (fun acc x => mapDelete acc x.1) m, e ∈ m := by
  induction l generalizing m with
  | nil => exact fun e he => he
  | cons x rest ih =>
    exact fun e he => mem_mapDelete (ih (mapDelete m x.1) e he)

/-- C7 (amended): a `getOrCreate` request for a language with no registered
profile fails with the `Unsupported language` error, issues no
container-create call (`createCalls` and `nextContainer` unchanged) and
registers no context for the requested pair — but the registry is *not*
left unchanged in general: the per-owner quota enforcement runs before the
language check, so the state the call leaves behind is exactly the state
after `enforceUserContextLimit`, which may have evicted (destroyed and
deregistered) the owner's least-recently-used contexts.  No entry is ever
added by the failed call. -/
theorem getOrCreate_unsupported_language (probe : String → Bool) (now : Nat)
    (u lang : String) (st : SvcState)
    (hlang : languageTiers lang = none)
    (hkey : mapGet st.persistentContexts (u ++ ":" ++ lang) = none) :
    (getOrCreatePersistentContext probe now u lang st).1
      = .error ("Unsupported language: " ++ lang)
    ∧ (getOrCreatePersistentContext probe now u lang st).2.createCalls
      = st.createCalls
    ∧ (getOrCreatePersistentContext probe now u lang st).2.nextContainer
      = st.nextContainer
    ∧ mapGet (getOrCreatePersistentContext probe now u lang st).2.persistentContexts
        (u ++ ":" ++ lang) = none
    ∧ (getOrCreatePersistentContext probe now u lang st).2.persistentContexts
      = (enforceUserContextLimit st.persistentContexts u).2
    ∧ ∀ e ∈ (getOrCreatePersistentContext probe now u lang st).2.persistentContexts,
        e ∈ st.persistentContexts := by
  have hrun : getOrCreatePersistentContext probe now u lang st
      = (.error ("Unsupported language: " ++ lang),
         { st with
           persistentContexts := (enforceUserContextLimit st.persistentContexts u).2
           destroyed := st.destroyed
             ++ (enforceUserContextLimit st.persistentContexts u).1 }) := by
    unfold getOrCreatePersistentContext getOrCreateAfterProbe
    simp only [hkey, hlang]
  rw [hrun]
  refine ⟨rfl, rfl, rfl, ?_, rfl, ?_⟩
  · show mapGet (enforceUserContextLimit st.persistentContexts u).2
      (u ++ ":" ++ lang) = none
    unfold enforceUserContextLimit
    exact foldl_mapDelete_none hkey _
  · show ∀ e ∈ (enforceUserContextLimit st.persistentContexts u).2,
      e ∈ st.persistentContexts
    unfold enforceUserContextLimit
    exact fun e he => foldl_mapDelete_subset _ _ e he

/-- Witness for C7's amended theorem at a concrete state: alice requests the
unregistered language rust while holding five contexts. -/
theorem getOrCreate_unsupported_language_witness :
    (getOrCreatePersistentContext (fun _ => true) 100 "alice" "rust"
        aliceFullState).1 = .error ("Unsupported language: " ++ "rust")
    ∧ (getOrCreatePersistentContext (fun _ => true) 100 "alice" "rust"
        aliceFullState).2.createCalls = aliceFullState.createCalls
    ∧ (getOrCreatePersistentContext (fun _ => true) 100 "alice" "rust"
        aliceFullState).2.nextContainer = aliceFullState.nextContainer
    ∧ mapGet (getOrCreatePersistentContext (fun _ => true) 100 "alice" "rust"
        aliceFullState).2.persistentContexts ("alice" ++ ":" ++ "rust") = none
    ∧ (getOrCreatePersistentContext (fun _ => true) 100 "alice" "rust"
        aliceFullState).2.persistentContexts
      = (enforceUserContextLimit aliceFullState.persistentContexts "alice").2
    ∧ ∀ e ∈ (getOrCreatePersistentContext (fun _ => true) 100 "alice" "rust"
        aliceFullState).2.persistentContexts,
        e ∈ aliceFullState.persistentContexts :=
  getOrCreate_unsupported_language (fun _ => true) 100 "alice" "rust"
    aliceFullState rfl rfl

/-- C7 counterexample: at that same concrete state the failed call does
*not* leave the persistent-context registry unchanged — the owner's
least-recently-used context (container c2) is destroyed and deregistered,
shrinking the registry from 5 entries to 4, even though the call fails with
the unsupported-language error. -/
theorem getOrCreate_unsupported_language_evicts :
    (getOrCreatePersistentContext (fun _ => true) 100 "alice" "rust"
        aliceFullState).1 = .error "Unsupported language: rust"
    ∧ (getOrCreatePersistentContext (fun _ => true) 100 "alice" "rust"
        aliceFullState).2.destroyed = ["c2"]
    ∧ aliceFullState.destroyed = []
    ∧ aliceFullState.persistentContexts.length = 5
    ∧ (getOrCreatePersistentContext (fun _ => true) 100 "alice" "rust"
        aliceFullState).2.persistentContexts.length = 4 :=
  ⟨rfl, rfl, rfl, rfl, rfl⟩

theorem filter_mapDelete_comm {m : List ContextEntry}
    (hnd : (m.map Prod.fst).Nodup) (u k : String) :
    (mapDelete m k).filter (fun e => e.2.userId = u)
      = mapDelete (m.filter (fun e => e.2.userId = u)) k := by
  have hsub : List.Sublist ((m.filter (fun e => e.2.userId = u)).map Prod.fst)
      (m.map Prod.fst) := (List.filter_sublist m).map Prod.fst
  have hnd2 : ((m.filter (fun e => e.2.userId = u)).map Prod.fst).Nodup :=
    hnd.sublist hsub
  rw [mapDelete_eq_filter_of_nodup hnd, mapDelete_eq_filter_of_nodup hnd2,
    List.filter_filter, List.filter_filter]
  exact List.filter_congr (fun e _ => Bool.and_comm _ _)

theorem enforceUserContextLimit_at_cap (reg : List ContextEntry) (u : String)
    (hcount : (reg.filter (fun e => e.2.userId = u)).length
      = MAX_CONTEXTS_PER_USER) :
    ∃ y ys,
      sortByLastUsed (reg.filter (fun e => e.2.userId = u)) = y :: ys
      ∧ enforceUserContextLimit reg u = ([y.2.containerId], mapDelete reg y.1) := by
  have hlen : (sortByLastUsed (reg.filter (fun e => e.2.userId = u))).length = 5 := by
    rw [(sortByLastUsed_perm _).length_eq, hcount]
    rfl
  obtain ⟨y, ys, hcons⟩ :
      ∃ y ys, sortByLastUsed (reg.filter (fun e => e.2.userId = u)) = y :: ys := by
    cases hs : sortByLastUsed (reg.filter (fun e => e.2.userId = u)) with
    | nil => rw [hs] at hlen; simp at hlen
    | cons a l => exact ⟨a, l, rfl⟩
  have hlen2 : (y :: ys).length = 5 := hcons ▸ hlen
  refine ⟨y, ys, hcons, ?_⟩
  simp only [enforceUserContextLimit, hcons, hlen2, MAX_CONTEXTS_PER_USER]
  norm_num

/-- C2: when an owner already holds exactly `MAX_CONTEXTS_PER_USER` live
contexts (under distinct keys) and a context is created for a new
(owner, language) pair, exactly one existing context of that owner — one
with the smallest `lastUsed` among the owner's contexts — is evicted first:
its container is destroyed and its entry removed from the registry, and the
new context is registered, so the owner again holds exactly
`MAX_CONTEXTS_PER_USER` contexts (never more). -/
theorem getOrCreate_evicts_lru_at_cap (probe : String → Bool) (now : Nat)
    (u lang : String) (st : SvcState) (cfg : LanguageTier)
    (hnd : (st.persistentContexts.map Prod.fst).Nodup)
    (hkey : mapGet st.persistentContexts (u ++ ":" ++ lang) = none)
    (hlang : languageTiers lang = some cfg)
    (hcount : (st.persistentContexts.filter (fun e => e.2.userId = u)).length
      = MAX_CONTEXTS_PER_USER) :
    ∃ lru,
      getOrCreatePersistentContext probe now u lang st
        = (.ok (newContextFor u lang now st.nextContainer),
           { persistentContexts :=
               mapDelete st.persistentContexts lru.1
                 ++ [(u ++ ":" ++ lang, newContextFor u lang now st.nextContainer)]
             nextContainer := st.nextContainer + 1
             createCalls := st.createCalls + 1
             destroyed := st.destroyed ++ [lru.2.containerId] })
      ∧ lru ∈ st.persistentContexts
      ∧ lru.2.userId = u
      ∧ (∀ e ∈ st.persistentContexts, e.2.userId = u →
          lru.2.lastUsed ≤ e.2.lastUsed)
      ∧ ((mapDelete st.persistentContexts lru.1
            ++ [(u ++ ":" ++ lang, newContextFor u lang now st.nextContainer)]).filter
          (fun e => e.2.userId = u)).length = MAX_CONTEXTS_PER_USER := by
  obtain ⟨y, ys, hcons, henf⟩ :=
    enforceUserContextLimit_at_cap st.persistentContexts u hcount
  have hy_sorted : y ∈ sortByLastUsed
      (st.persistentContexts.filter (fun e => e.2.userId = u)) := by
    rw [hcons]; exact List.mem_cons_self y ys
  have hy_owned : y ∈ st.persistentContexts.filter (fun e => e.2.userId = u) :=
    (sortByLastUsed_perm _).mem_iff.1 hy_sorted
  have hy_mem : y ∈ st.persistentContexts := (List.mem_filter.1 hy_owned).1
  have hy_uid : y.2.userId = u := by
    have := (List.mem_filter.1 hy_owned).2
    simpa using this
  have hy_min : ∀ e ∈ st.persistentContexts, e.2.userId = u →
      y.2.lastUsed ≤ e.2.lastUsed := by
    intro e he heu
    exact sortByLastUsed_head_min hcons e
      (List.mem_filter.2 ⟨he, by simpa using heu⟩)
  have hkey2 : mapGet (mapDelete st.persistentContexts y.1)
      (u ++ ":" ++ lang) = none := mapGet_none_mapDelete hkey
  refine ⟨y, ?_, hy_mem, hy_uid, hy_min, ?_⟩
  · unfold getOrCreatePersistentContext getOrCreateAfterProbe
    simp only [hkey, henf, hlang]
    rw [mapSet_of_absent hkey2]
  · rw [List.filter_append, filter_mapDelete_comm hnd, List.length_append]
    have hlen := mapDelete_length_of_mem
      (m := st.persistentContexts.filter (fun e => e.2.userId = u))
      (k := y.1) (v := y.2) (by simpa using hy_owned)
    have hnewuid :
        (List.filter (fun e => decide (e.2.userId = u))
          [(u ++ ":" ++ lang, newContextFor u lang now st.nextContainer)]).length = 1 := by
      simp [newContextFor]
    rw [hnewuid]
    have hmax5 : MAX_CONTEXTS_PER_USER = 5 := rfl
    rw [hmax5] at hcount ⊢
    rw [hcount] at hlen
    omega

/-- Witness for C2 at a concrete state: alice holds five contexts and
creates one for the new pair (alice, java); the least-recently-used context
is evicted and she again holds exactly five. -/
theorem getOrCreate_evicts_lru_at_cap_witness :
    ∃ lru,
      getOrCreatePersistentContext (fun _ => true) 100 "alice" "java"
          aliceFullState
        = (.ok (newContextFor "alice" "java" 100 aliceFullState.nextContainer),
           { persistentContexts :=
               mapDelete aliceFullState.persistentContexts lru.1
                 ++ [("alice" ++ ":" ++ "java",
                      newContextFor "alice" "java" 100 aliceFullState.nextContainer)]
             nextContainer := aliceFullState.nextContainer + 1
             createCalls := aliceFullState.createCalls + 1
             destroyed := aliceFullState.destroyed ++ [lru.2.containerId] })
      ∧ lru ∈ aliceFullState.persistentContexts
      ∧ lru.2.userId = "alice"
      ∧ (∀ e ∈ aliceFullState.persistentContexts, e.2.userId = "alice" →
          lru.2.lastUsed ≤ e.2.lastUsed)
      ∧ ((mapDelete aliceFullState.persistentContexts lru.1
            ++ [("alice" ++ ":" ++ "java",
                 newContextFor "alice" "java" 100 aliceFullState.nextContainer)]).filter
          (fun e => e.2.userId = "alice")).length = MAX_CONTEXTS_PER_USER :=
  getOrCreate_evicts_lru_at_cap (fun _ => true) 100 "alice" "java"
    aliceFullState javaTier (by decide) rfl rfl (by decide)

/-! ### `sanitizeOutput` lemmas -/

theorem truncationMarker_clean :
    ∀ c ∈ truncationMarker, isStrippedCtrl c = false := by decide

theorem stripControlChars_clean (l : List Char) :
    ∀ c ∈ stripControlChars l, isStrippedCtrl c = false := by
  intro c hc
  have := (List.mem_filter.1 hc).2
  simpa using this

/-- C8: for every raw output chunk, the sanitized broadcast text contains no
character of the stripped control class (so no ASCII control character or
DEL other than newline, tab and carriage return), and its length never
exceeds `MAX_OUTPUT_SIZE` plus the length of the visible truncation marker.
The marker is appended exactly when the control-stripped text exceeded
`MAX_OUTPUT_SIZE`: in that case the result is the 50000-character prefix
followed by the marker (so the capped length is attained), and otherwise the
result is the stripped text itself, unmarked and within the cap. -/
theorem sanitizeOutput_spec (s : List Char) :
    (∀ c ∈ sanitizeOutput s, isStrippedCtrl c = false)
    ∧ (sanitizeOutput s).length ≤ MAX_OUTPUT_SIZE + truncationMarker.length
    ∧ (MAX_OUTPUT_SIZE < (stripControlChars (stripAnsiColor s)).length →
        sanitizeOutput s
          = (stripControlChars (stripAnsiColor s)).take MAX_OUTPUT_SIZE
              ++ truncationMarker
        ∧ (sanitizeOutput s).length
          = MAX_OUTPUT_SIZE + truncationMarker.length)
    ∧ ((stripControlChars (stripAnsiColor s)).length ≤ MAX_OUTPUT_SIZE →
        sanitizeOutput s = stripControlChars (stripAnsiColor s)) := by
  by_cases hlen : MAX_OUTPUT_SIZE < (stripControlChars (stripAnsiColor s)).length
  · have hrun : sanitizeOutput s
        = (stripControlChars (stripAnsiColor s)).take MAX_OUTPUT_SIZE
            ++ truncationMarker := by
      unfold sanitizeOutput
      rw [if_pos hlen]
    have hlen2 : (sanitizeOutput s).length
        = MAX_OUTPUT_SIZE + truncationMarker.length := by
      rw [hrun, List.length_append, List.length_take,
        Nat.min_eq_left (le_of_lt hlen)]
    refine ⟨?_, le_of_eq hlen2, fun _ => ⟨hrun, hlen2⟩, fun hc => absurd hc (not_le.2 hlen)⟩
    intro c hc
    rw [hrun] at hc
    rcases List.mem_append.1 hc with hc | hc
    · exact stripControlChars_clean _ c (List.take_subset _ _ hc)
    · exact truncationMarker_clean c hc
  · have hrun : sanitizeOutput s = stripControlChars (stripAnsiColor s) := by
      unfold sanitizeOutput
      rw [if_neg hlen]
    refine ⟨?_, ?_, fun hc => absurd hc hlen, fun _ => hrun⟩
    · intro c hc
      rw [hrun] at hc
      exact stripControlChars_clean _ c hc
    · rw [hrun]
      exact le_trans (not_lt.1 hlen) (Nat.le_add_right _ _)

/-- Witness for C8 at a concrete chunk containing an ANSI color sequence, a
bell character and ordinary text. -/
theorem sanitizeOutput_spec_witness :
    (∀ c ∈ sanitizeOutput ("\x1b[31mRed\x07ok\n".data),
        isStrippedCtrl c = false)
    ∧ (sanitizeOutput ("\x1b[31mRed\x07ok\n".data)).length
      ≤ MAX_OUTPUT_SIZE + truncationMarker.length
    ∧ sanitizeOutput ("\x1b[31mRed\x07ok\n".data)
      = stripControlChars (stripAnsiColor ("\x1b[31mRed\x07ok\n".data)) :=
  ⟨(sanitizeOutput_spec _).1, (sanitizeOutput_spec _).2.1,
   (sanitizeOutput_spec _).2.2.2 (by decide)⟩

/-! ### Room and session sweep lemmas -/

/-- C9: a room terminal with at least one active session is never destroyed
by the room sweep, no matter how far in the past its `lastActivity` lies and
whether teardown would succeed: the sweep only removes rooms that are both
idle past the threshold and have an empty session map. -/
theorem room_with_sessions_never_swept (destroyOk : String → Bool)
    (st : TerminalServiceState) (now : Nat) (roomId : String)
    (room : RoomTerminalState)
    (hmem : (roomId, room) ∈ st.roomTerminals)
    (hne : room.activeSessions ≠ []) :
    (roomId, room) ∈ (cleanupUnusedRoomTerminals destroyOk st now).roomTerminals := by
  unfold cleanupUnusedRoomTerminals
  refine List.mem_filter.2 ⟨hmem, ?_⟩
  have hempty : room.activeSessions.isEmpty = false := by
    cases he : room.activeSessions with
    | nil => exact absurd he hne
    | cons a l => rfl
  simp [hempty]

/-- Witness for C9: the fixture room has one active session, its
`lastActivity` is 100000000 ms in the past, teardown would succeed, and the
sweep still keeps it. -/
theorem room_with_sessions_never_swept_witness :
    ("room1", roomFixture) ∈ (cleanupUnusedRoomTerminals (fun _ => true)
      terminalStateFixture 100000000).roomTerminals :=
  room_with_sessions_never_swept (fun _ => true) terminalStateFixture
    100000000 "room1" roomFixture (by decide) (by decide)

theorem handleTerminalInput_userSessions (st : TerminalServiceState)
    (i inp : String) (n : Nat) :
    (handleTerminalInput st i inp n).userSessions = st.userSessions := by
  unfold handleTerminalInput
  cases mapGet st.userSessions i with
  | none => rfl
  | some s =>
    by_cases h : s.isActive = true
    · simp only [h, if_true]
    · simp only [h, if_false, Bool.false_eq_true]

theorem applyTerminalInputs_userSessions (st : TerminalServiceState)
    (evs : List (String × String × Nat)) :
    (applyTerminalInputs st evs).userSessions = st.userSessions := by
  induction evs generalizing st with
  | nil => rfl
  | cons e rest ih =>
    show (applyTerminalInputs (handleTerminalInput st e.1 e.2.1 e.2.2)
      rest).userSessions = st.userSessions
    rw [ih, handleTerminalInput_userSessions]

theorem handleDisconnect_userSessions_none {st : TerminalServiceState}
    {k : String} (j : String) (h : mapGet st.userSessions k = none) :
    mapGet (handleDisconnect st j).userSessions k = none := by
  unfold handleDisconnect
  cases mapGet st.userSessions j with
  | none => exact h
  | some s => exact mapGet_none_mapDelete h

theorem handleDisconnect_userSessions_sublist (st : TerminalServiceState)
    (j : String) :
    List.Sublist (handleDisconnect st j).userSessions st.userSessions := by
  unfold handleDisconnect
  cases mapGet st.userSessions j with
  | none => exact List.Sublist.refl _
  | some s => exact mapDelete_sublist _ _

theorem handleDisconnect_self_none {st : TerminalServiceState} {k : String}
    (hnd : (st.userSessions.map Prod.fst).Nodup) :
    mapGet (handleDisconnect st k).userSessions k = none := by
  unfold handleDisconnect
  cases hg : mapGet st.userSessions k with
  | none => exact hg
  | some s => exact mapGet_mapDelete_self_of_nodup hnd k

theorem cleanupFold_preserves_none (now : Nat)
    (l : List (String × TerminalSessionState)) :
    ∀ (acc : TerminalServiceState) (k : String),
      mapGet acc.userSessions k = none →
      mapGet ((l.foldl (fun acc e =>
          if SESSION_MAX_INACTIVE_TIME < now - e.2.startTime
          then handleDisconnect acc e.1 else acc) acc)).userSessions k = none := by
  induction l with
  | nil => exact fun acc k h => h
  | cons e rest ih =>
    intro acc k h
    simp only [List.foldl_cons]
    by_cases hc : SESSION_MAX_INACTIVE_TIME < now - e.2.startTime
    · rw [if_pos hc]
      exact ih _ k (handleDisconnect_userSessions_none e.1 h)
    · rw [if_neg hc]
      exact ih _ k h

theorem cleanupFold_sublist (now : Nat)
    (l : List (String × TerminalSessionState)) :
    ∀ acc : TerminalServiceState,
      List.Sublist ((l.foldl (fun acc e =>
          if SESSION_MAX_INACTIVE_TIME < now - e.2.startTime
          then handleDisconnect acc e.1 else acc) acc)).userSessions
        acc.userSessions := by
  induction l with
  | nil => exact fun acc => List.Sublist.refl _
  | cons e rest ih =>
    intro acc
    simp only [List.foldl_cons]
    by_cases hc : SESSION_MAX_INACTIVE_TIME < now - e.2.startTime
    · rw [if_pos hc]
      exact (ih _).trans (handleDisconnect_userSessions_sublist acc e.1)
    · rw [if_neg hc]
      exact ih _

/-- C10: the periodic session sweep disconnects a terminal session once more
than `SESSION_MAX_INACTIVE_TIME` (30 minutes) has elapsed since the
session's `startTime`, however many `terminal-input` events the session sent
in the meantime: input events never touch the `userSessions` registry (they
only refresh the *room's* `lastActivity`), so reaping is by age since
creation, not by time since last activity. -/
theorem sessionSweep_by_age (st : TerminalServiceState) (k : String)
    (s : TerminalSessionState) (evs : List (String × String × Nat)) (now : Nat)
    (hnd : (st.userSessions.map Prod.fst).Nodup)
    (h : mapGet st.userSessions k = some s)
    (hexp : SESSION_MAX_INACTIVE_TIME < now - s.startTime) :
    (applyTerminalInputs st evs).userSessions = st.userSessions
    ∧ mapGet (cleanupInactiveSessions (applyTerminalInputs st evs)
        now).userSessions k = none := by
  have hus := applyTerminalInputs_userSessions st evs
  refine ⟨hus, ?_⟩
  unfold cleanupInactiveSessions
  rw [hus]
  obtain ⟨l1, l2, hsplit⟩ := List.append_of_mem (mapGet_some_mem h)
  rw [hsplit, List.foldl_append, List.foldl_cons]
  have hnd1 : (((applyTerminalInputs st evs).userSessions).map Prod.fst).Nodup := by
    rw [hus]; exact hnd
  have hacc1 :
      ((List.foldl (fun acc e =>
          if SESSION_MAX_INACTIVE_TIME < now - e.2.startTime
          then handleDisconnect acc e.1 else acc)
        (applyTerminalInputs st evs) l1).userSessions.map Prod.fst).Nodup :=
    hnd1.sublist ((cleanupFold_sublist now l1 _).map Prod.fst)
  rw [if_pos hexp]
  exact cleanupFold_preserves_none now l2 _ k (handleDisconnect_self_none hacc1)

/-- Witness for C10: the fixture session started at time 0, keeps sending
input, and the sweep at time 10000000 still disconnects it. -/
theorem sessionSweep_by_age_witness :
    (applyTerminalInputs terminalStateFixture
      [("sock1", "echo hi", 9999999)]).userSessions
      = terminalStateFixture.userSessions
    ∧ mapGet (cleanupInactiveSessions (applyTerminalInputs terminalStateFixture
        [("sock1", "echo hi", 9999999)]) 10000000).userSessions "sock1" = none :=
  sessionSweep_by_age terminalStateFixture "sock1" sessionFixture
    [("sock1", "echo hi", 9999999)] 10000000 (by decide) rfl (by decide)
